import Mathlib

set_option maxRecDepth 4000

/-!
Verification development for `daily_pubmed_digest.py`, a script that turns
PubMed XML records into normalized display records and tracks already-sent
PMIDs in a persisted JSON state file.  The definitions below are a shallow
embedding of the script's pure core: string normalization, the XML element
model with the ElementTree queries the script uses, date formatting, country
inference from affiliation strings, per-article record extraction, and the
sent-state store (load / register / save).  Machine integers do not occur;
all text is modelled as Lean `String` / `List Char`.
-/

/-! ## Python string helpers -/

/-- Whitespace set of Python's `\s` (ASCII part) and `str.strip()`. -/
def pyIsSpace (c : Char) : Bool :=
  c = ' ' || c = '\t' || c = '\n' || c = '\r' || c = '\x0b' || c = '\x0c'

/-- Word characters of Python's regex `\w` (ASCII part). -/
def pyIsWordChar (c : Char) : Bool :=
  c.isAlpha || c.isDigit || c = '_'

/-- Strip characters satisfying `p` from the front and back of a char list,
as Python's `str.strip` family does. -/
def stripWhile (p : Char → Bool) (l : List Char) : List Char :=
  ((l.dropWhile p).reverse.dropWhile p).reverse

/-- Python `s.strip()` (whitespace strip). -/
def pyStrip (s : String) : String :=
  (stripWhile pyIsSpace s.data).asString

/-- Auxiliary scanner for `re.sub(r"\s+", " ", s)`: collapse every maximal
whitespace run to a single space.  The flag records whether the previously
emitted character came from a whitespace run. -/
def collapseWsAux : Bool → List Char → List Char
  | _, [] => []
  | prevSpace, c :: rest =>
    if pyIsSpace c then
      if prevSpace then collapseWsAux true rest
      else ' ' :: collapseWsAux true rest
    else c :: collapseWsAux false rest

/-- Model of `re.sub(r"\s+", " ", s)`. -/
def collapseWs (l : List Char) : List Char := collapseWsAux false l

/-- Embedding of `_norm_ws`: collapse whitespace runs, then strip. -/
def _norm_ws (s : String) : String :=
  (stripWhile pyIsSpace (collapseWs s.data)).asString

/-- Python `str.lower()` (ASCII part, which is all the script's tables need
apart from characters that are already lower case). -/
def lowerStr (s : String) : String :=
  (s.data.map Char.toLower).asString

/-- Nonempty all-digit string, as Python `str.isdigit()` on ASCII digits. -/
def isDigitStr (s : String) : Bool :=
  s.data ≠ [] && s.data.all Char.isDigit

/-- First-match association-list lookup, the model of a Python `dict.get`. -/
def alookupS {V : Type} : List (String × V) → String → Option V
  | [], _ => none
  | (k, v) :: rest, key => if k = key then some v else alookupS rest key

/-! ## XML element model

The script works on `xml.etree.ElementTree` elements.  An element has a tag,
attributes, optional text, optional tail text, and children.  Lean 4.14 has
no structural recursion through a nested `List`, so the children are a
mutually inductive list type; `Element.children` recovers a `List Element`. -/

mutual
inductive Element where
  | mk (tag : String) (attrs : List (String × String)) (text : Option String)
       (tail : Option String) (children : ElemList)
inductive ElemList where
  | nil
  | cons (head : Element) (tail : ElemList)
end

/-- Build the child list from a Lean list (convenience constructor input). -/
def ElemList.ofList : List Element → ElemList
  | [] => .nil
  | c :: cs => .cons c (ElemList.ofList cs)

/-- Convenience constructor taking the children as a plain list. -/
def elem (tag : String) (attrs : List (String × String)) (text : Option String)
    (tail : Option String) (children : List Element) : Element :=
  .mk tag attrs text tail (ElemList.ofList children)

def Element.tag : Element → String | .mk t _ _ _ _ => t
def Element.attrs : Element → List (String × String) | .mk _ a _ _ _ => a
def Element.text : Element → Option String | .mk _ _ tx _ _ => tx

/-- Python `elem.text or ""`. -/
def Element.textD (e : Element) : String := e.text.getD ""

def Element.tailD : Element → String | .mk _ _ _ tl _ => tl.getD ""

def ElemList.toList : ElemList → List Element
  | .nil => []
  | .cons c cs => c :: ElemList.toList cs

def Element.children : Element → List Element
  | .mk _ _ _ _ cs => cs.toList

mutual
/-- Proper descendants of an element in document (preorder) order; the node
set that an ElementTree `.//` path starts from. -/
def Element.descendants : Element → List Element
  | .mk _ _ _ _ cs => ElemList.descList cs
def ElemList.descList : ElemList → List Element
  | .nil => []
  | .cons c cs => c :: c.descendants ++ ElemList.descList cs
end

mutual
/-- Concatenation of the text pieces `Element.itertext()` yields: the node's
text, then recursively each child's pieces followed by the child's tail. -/
def Element.allText : Element → String
  | .mk _ _ tx _ cs => tx.getD "" ++ ElemList.allTextList cs
def ElemList.allTextList : ElemList → String
  | .nil => ""
  | .cons c cs => c.allText ++ c.tailD ++ ElemList.allTextList cs
end

/-- Embedding of `_itertext`: `""` for a missing element, otherwise the
whitespace-normalized concatenation of all inner text. -/
def _itertext : Option Element → String
  | none => ""
  | some e => _norm_ws e.allText

/-! ### ElementTree queries used by the script

Each helper mirrors one concrete path shape that appears in the source;
the tag strings are supplied at the call sites. -/

/-- Children with a given tag (a one-step relative path such as `"LastName"`). -/
def childrenNamed (e : Element) (t : String) : List Element :=
  e.children.filter fun c => c.tag = t

/-- Descendants with a given tag (path `".//T"`). -/
def descendantsNamed (e : Element) (t : String) : List Element :=
  e.descendants.filter fun c => c.tag = t

/-- `findall(".//T1/T2")`: children named `t2` of descendants named `t1`,
in document order of the `t1` nodes. -/
def findallDesc2 (e : Element) (t1 t2 : String) : List Element :=
  (descendantsNamed e t1).flatMap fun x => childrenNamed x t2

/-- `findall(".//T1/T2/T3")`. -/
def findallDesc3 (e : Element) (t1 t2 t3 : String) : List Element :=
  (findallDesc2 e t1 t2).flatMap fun x => childrenNamed x t3

/-- `find("T1/T2")` (relative two-step path). -/
def findChild2 (e : Element) (t1 t2 : String) : Option Element :=
  ((childrenNamed e t1).flatMap fun x => childrenNamed x t2).head?

/-- `findtext("T")` for a one-step relative path: `None` when no such child,
otherwise the child's text (with `None` text read as `""`). -/
def findtextChild (e : Element) (t : String) : Option String :=
  (childrenNamed e t).head?.map Element.textD

/-- `findtext(".//T")`. -/
def findtextDesc1 (e : Element) (t : String) : Option String :=
  (descendantsNamed e t).head?.map Element.textD

/-- `findtext(".//T1/T2")`. -/
def findtextDesc2 (e : Element) (t1 t2 : String) : Option String :=
  (findallDesc2 e t1 t2).head?.map Element.textD

/-- `findtext(".//T1/T2/T3")`. -/
def findtextDesc3 (e : Element) (t1 t2 t3 : String) : Option String :=
  (findallDesc3 e t1 t2 t3).head?.map Element.textD

/-- `elem.attrib.get(name, "")`-style attribute access. -/
def attrD (e : Element) (name : String) : String :=
  (alookupS e.attrs name).getD ""

/-- `find(".//History/PubMedPubDate[@PubStatus=status])`: first
`PubMedPubDate` child of a `History` descendant whose `PubStatus` attribute
equals `status`. -/
def findHistoryStatus (art : Element) (status : String) : Option Element :=
  ((findallDesc2 art "History" "PubMedPubDate").filter fun p =>
    alookupS p.attrs "PubStatus" = some status).head?

/-! ## Date formatting (`_MONTH_ABBR`, `_fmt_date`, `_extract_pubdate_display`) -/

/-- The script's `_MONTH_ABBR` table. -/
def _MONTH_ABBR : List (String × String) :=
  [("1","Jan"),("01","Jan"),("Jan","Jan"),("January","Jan"),
   ("2","Feb"),("02","Feb"),("Feb","Feb"),("February","Feb"),
   ("3","Mar"),("03","Mar"),("Mar","Mar"),("March","Mar"),
   ("4","Apr"),("04","Apr"),("Apr","Apr"),("April","Apr"),
   ("5","May"),("05","May"),("May","May"),
   ("6","Jun"),("06","Jun"),("Jun","Jun"),("June","Jun"),
   ("7","Jul"),("07","Jul"),("Jul","Jul"),("July","Jul"),
   ("8","Aug"),("08","Aug"),("Aug","Aug"),("August","Aug"),
   ("9","Sep"),("09","Sep"),("Sep","Sep"),("September","Sep"),
   ("10","Oct"),("Oct","Oct"),("October","Oct"),
   ("11","Nov"),("Nov","Nov"),("November","Nov"),
   ("12","Dec"),("Dec","Dec"),("December","Dec")]

/-- Embedding of `_fmt_date`.  The arguments are `findtext` results, so a
missing element arrives as `none` and is read as `""` exactly like the
source's `(y or "")`. -/
def _fmt_date (y m d : Option String) : String :=
  let y := pyStrip (y.getD "")
  let m0 := pyStrip (m.getD "")
  let m := (alookupS _MONTH_ABBR m0).getD m0
  let d := pyStrip (d.getD "")
  if y ≠ "" ∧ m ≠ "" ∧ d ≠ "" then
    let d := if isDigitStr d ∧ d.length = 1 then "0" ++ d else d
    y ++ " " ++ m ++ " " ++ d
  else if y ≠ "" ∧ m ≠ "" then y ++ " " ++ m
  else y

/-- `_fmt_date(x.findtext("Year"), x.findtext("Month"), x.findtext("Day"))`,
the pattern the source applies to `ArticleDate` and `PubMedPubDate` nodes. -/
def fmtDateNode (x : Element) : String :=
  _fmt_date (findtextChild x "Year") (findtextChild x "Month") (findtextChild x "Day")

/-- `art.findall(".//Article/ArticleDate")`. -/
def articleDates (art : Element) : List Element :=
  findallDesc2 art "Article" "ArticleDate"

/-- First `ArticleDate` whose lower-cased `DateType` attribute is
`"electronic"` (the source's first loop returns on the first such node). -/
def electronicDate (art : Element) : Option Element :=
  (articleDates art).find? fun ad => lowerStr (attrD ad "DateType") = "electronic"

/-- Step 3 of the fallback chain: the issue's `Year`/`Month`/`Day`. -/
def issueDateStr (art : Element) : String :=
  _fmt_date (findtextDesc3 art "JournalIssue" "PubDate" "Year")
            (findtextDesc3 art "JournalIssue" "PubDate" "Month")
            (findtextDesc3 art "JournalIssue" "PubDate" "Day")

/-- Step 4: the issue's free-text `MedlineDate`, stripped. -/
def medlineDate (art : Element) : String :=
  pyStrip ((findtextDesc3 art "JournalIssue" "PubDate" "MedlineDate").getD "")

/-- Step 5: the source's final loop returns the date of the FIRST history
entry present, scanning the statuses `"pubmed"`, `"entrez"`, `"medline"` in
that fixed order. -/
def historyDate (art : Element) : String :=
  match findHistoryStatus art "pubmed" with
  | some p => fmtDateNode p
  | none =>
    match findHistoryStatus art "entrez" with
    | some p => fmtDateNode p
    | none =>
      match findHistoryStatus art "medline" with
      | some p => fmtDateNode p
      | none => ""

/-- Steps 3-5 of `_extract_pubdate_display` (everything after the
`ArticleDate` checks). -/
def pubdateFromIssue (art : Element) : String :=
  let s := issueDateStr art
  if s ≠ "" then s
  else if medlineDate art ≠ "" then medlineDate art
  else historyDate art

/-- Embedding of `_extract_pubdate_display`: electronic `ArticleDate` first
(returned unconditionally once found), then the first `ArticleDate` of any
type if its rendering is nonempty, then the issue date, the `MedlineDate`
free text, and the history entries. -/
def _extract_pubdate_display (art : Element) : String :=
  match electronicDate art with
  | some ad => fmtDateNode ad
  | none =>
    match (articleDates art).head? with
    | some ad =>
      let s := fmtDateNode ad
      if s ≠ "" then s else pubdateFromIssue art
    | none => pubdateFromIssue art

/-! ## Country inference tables (`COUNTRY_ALIASES`, `TLD_COUNTRY_MAP`) -/

/-- The script's `COUNTRY_ALIASES` dict, in source (insertion) order. -/
def COUNTRY_ALIASES : List (String × String) :=
  [("usa","USA"),("united states","USA"),("united states of america","USA"),("u.s.a.","USA"),
   ("uk","UK"),("united kingdom","UK"),("england","UK"),("scotland","UK"),("wales","UK"),("northern ireland","UK"),
   ("republic of korea","South Korea"),("south korea","South Korea"),("korea, republic of","South Korea"),("korea","South Korea"),
   ("pr china","China"),("p.r. china","China"),("people's republic of china","China"),("china","China"),
   ("japan","Japan"),("germany","Germany"),("france","France"),("italy","Italy"),("spain","Spain"),
   ("netherlands","Netherlands"),("switzerland","Switzerland"),("sweden","Sweden"),("norway","Norway"),
   ("denmark","Denmark"),("finland","Finland"),("austria","Austria"),("belgium","Belgium"),("ireland","Ireland"),
   ("canada","Canada"),("australia","Australia"),("singapore","Singapore"),("taiwan","Taiwan"),("hong kong","Hong Kong"),
   ("india","India"),("thailand","Thailand"),("malaysia","Malaysia"),("philippines","Philippines"),("indonesia","Indonesia"),
   ("vietnam","Vietnam"),("israel","Israel"),("turkey","Türkiye"),("türkiye","Türkiye"),
   ("saudi arabia","Saudi Arabia"),("united arab emirates","UAE"),("uae","UAE"),("qatar","Qatar"),("kuwait","Kuwait"),("iran","Iran"),
   ("brazil","Brazil"),("argentina","Argentina"),("chile","Chile"),("mexico","Mexico"),("colombia","Colombia"),("peru","Peru"),
   ("south africa","South Africa"),("egypt","Egypt")]

/-- The script's `TLD_COUNTRY_MAP` dict. -/
def TLD_COUNTRY_MAP : List (String × String) :=
  [("jp","Japan"),("uk","UK"),("de","Germany"),("fr","France"),("it","Italy"),("es","Spain"),("nl","Netherlands"),("ch","Switzerland"),
   ("se","Sweden"),("no","Norway"),("dk","Denmark"),("fi","Finland"),("at","Austria"),("be","Belgium"),("ie","Ireland"),
   ("ca","Canada"),("au","Australia"),("cn","China"),("kr","South Korea"),("tw","Taiwan"),("sg","Singapore"),("hk","Hong Kong"),
   ("in","India"),("tr","Türkiye"),("sa","Saudi Arabia"),("ae","UAE"),("qa","Qatar"),("kw","Kuwait"),("il","Israel"),("ir","Iran"),
   ("br","Brazil"),("ar","Argentina"),("cl","Chile"),("mx","Mexico"),("co","Colombia"),("pe","Peru"),("za","South Africa"),("eg","Egypt"),
   ("us","USA")]

/-- `COUNTRY_ALIASES.values()` as a list. -/
def COUNTRY_ALIASES_values : List String := COUNTRY_ALIASES.map Prod.snd

/-! ## Country inference (`_normalize_country`, `_extract_country_from_aff`) -/

/-- Embedding of `_normalize_country`: case-insensitive, whitespace-collapsed
alias lookup, falling back to the stripped input. -/
def _normalize_country (name : String) : String :=
  if name = "" then ""
  else
    let key := (collapseWs (stripWhile pyIsSpace (lowerStr name).data)).asString
    (alookupS COUNTRY_ALIASES key).getD (pyStrip name)

/-- Characters matched by the regex class `[\w\.-]` (the domain part of the
email pattern). -/
def isDomChar (c : Char) : Bool :=
  pyIsWordChar c || c = '.' || c = '-'

/-- Given the maximal `[\w\.-]` run after an `@`, pick the group the greedy
pattern `@[\w\.-]+\.(\w+)` captures: the maximal `\w+` run after the LAST
dot that is preceded by at least one run character and followed by a word
character.  `i` is the index of the current character; `acc` holds the most
recent (rightmost so far) candidate. -/
def tldFromRun : List Char → Nat → Option (List Char) → Option (List Char)
  | [], _, acc => acc
  | c :: rest, i, acc =>
    let acc' :=
      if c = '.' && i != 0 &&
          (match rest with | [] => false | d :: _ => pyIsWordChar d)
      then some (rest.takeWhile pyIsWordChar) else acc
    tldFromRun rest (i + 1) acc'

/-- Model of `re.search(r'@[\w\.-]+\.(\w+)', txt)`: scan for the leftmost
`@` at which the pattern matches and return the captured group. -/
def emailTldGroup : List Char → Option (List Char)
  | [] => none
  | c :: rest =>
    if c = '@' then
      match tldFromRun (rest.takeWhile isDomChar) 0 none with
      | some g => some g
      | none => emailTldGroup rest
    else emailTldGroup rest

/-- Tier 1 of the inference: the TLD of the first email-like match, looked
up in `TLD_COUNTRY_MAP`; `none` when there is no match or the TLD of the
first match is not a key of the table. -/
def tier1Email (txt : String) : Option String :=
  match emailTldGroup txt.data with
  | some g => alookupS TLD_COUNTRY_MAP (lowerStr g.asString)
  | none => none

/-- Split a char list on a single separator character, keeping empty
segments, as Python `str.split(sep)` does for the one-character separators
`";"` and `","` the script uses.  `acc` holds the current segment reversed. -/
def splitOnCharAux (sep : Char) : List Char → List Char → List (List Char)
  | [], acc => [acc.reverse]
  | c :: rest, acc =>
    if c = sep then acc.reverse :: splitOnCharAux sep rest []
    else splitOnCharAux sep rest (c :: acc)

def splitOnChar (sep : Char) (l : List Char) : List (List Char) :=
  splitOnCharAux sep l []

/-- Python `t.strip(" .,")`. -/
def stripTok (s : String) : String :=
  (stripWhile (fun c => c = ' ' || c = '.' || c = ',') s.data).asString

/-- Characters of the regex class `[A-Za-zÀ-ÿ .'-]` used by the
looks-like-a-place test. -/
def isPlaceChar (c : Char) : Bool :=
  ('A' ≤ c && c ≤ 'Z') || ('a' ≤ c && c ≤ 'z') ||
  (Char.ofNat 0xC0 ≤ c && c ≤ Char.ofNat 0xFF) ||
  c = ' ' || c = '.' || c = Char.ofNat 39 || c = '-'

/-- Model of `re.match(r"^[A-Za-zÀ-ÿ .'-]+$", tok)` (full-string match with
at least one character). -/
def looksLikePlace (tok : String) : Bool :=
  tok.data ≠ [] && tok.data.all isPlaceChar

/-- Tier 2: split off the segment after the last `;`, split it on commas
into `" .,"`-stripped nonempty tokens, and scan the tokens from the end,
accepting an alias hit or a token that looks like a place name. -/
def tier2Trailing (txt : String) : Option String :=
  let tl := ((splitOnChar ';' txt.data).getLastD []).asString
  let tokens := (splitOnChar ',' tl.data).filterMap fun t =>
    let t' := stripTok t.asString
    if t' = "" then none else some t'
  tokens.reverse.findSome? fun tok =>
    let norm := _normalize_country tok
    if norm ≠ tok ∨ norm ∈ COUNTRY_ALIASES_values then
      some ((alookupS COUNTRY_ALIASES (lowerStr norm)).getD norm)
    else if 2 ≤ tok.length ∧ tok.length ≤ 40 ∧ looksLikePlace tok then
      some tok
    else none

/-- Case-insensitive test that `txt` starts with `pat` (ASCII folding, the
behavior of `(?i)` on the table's alias strings). -/
def caselessPrefixOf : List Char → List Char → Bool
  | [], _ => true
  | _ :: _, [] => false
  | p :: ps, t :: ts => p.toLower = t.toLower && caselessPrefixOf ps ts

/-- Boundary class `(^|[,\s;])` before an alias occurrence. -/
def okBefore : Option Char → Bool
  | none => true
  | some c => c = ',' || c = ';' || pyIsSpace c

/-- Boundary class `([,\s.;]|$)` after an alias occurrence. -/
def okAfter : List Char → Bool
  | [] => true
  | c :: _ => c = ',' || c = ';' || c = '.' || pyIsSpace c

/-- Existence of a match of `(?i)(^|[,\s;])alias([,\s.;]|$)` in `txt`:
scan every position, remembering the previous character. -/
def aliasFoundAux (al : List Char) : Option Char → List Char → Bool
  | prev, [] => okBefore prev && caselessPrefixOf al [] && okAfter []
  | prev, c :: rest =>
    (okBefore prev && caselessPrefixOf al (c :: rest) &&
      okAfter ((c :: rest).drop al.length)) ||
    aliasFoundAux al (some c) rest

/-- Existence of a standalone-word occurrence of the alias in the text. -/
def aliasFound (al : String) (txt : String) : Bool :=
  aliasFoundAux al.data none txt.data

/-- Python's stable `sorted(keys, key=len, reverse=True)`, realized by
tagging each entry with its index and sorting by the strict total order
"longer key first, ties by original position". -/
def aliasSortLE (a b : (String × String) × Nat) : Prop :=
  b.1.1.length < a.1.1.length ∨ (b.1.1.length = a.1.1.length ∧ a.2 ≤ b.2)

instance : DecidableRel aliasSortLE := fun a b => by
  unfold aliasSortLE; infer_instance

instance : IsTotal ((String × String) × Nat) aliasSortLE :=
  ⟨fun a b => by
    unfold aliasSortLE
    rcases Nat.lt_trichotomy a.1.1.length b.1.1.length with h | h | h
    · exact .inr (.inl h)
    · rcases Nat.le_total a.2 b.2 with h2 | h2
      · exact .inl (.inr ⟨h.symm, h2⟩)
      · exact .inr (.inr ⟨h, h2⟩)
    · exact .inl (.inl h)⟩

instance : IsTrans ((String × String) × Nat) aliasSortLE :=
  ⟨fun a b c hab hbc => by
    unfold aliasSortLE at *
    rcases hab with h1 | ⟨e1, l1⟩
    · rcases hbc with h2 | ⟨e2, _⟩
      · exact .inl (h2.trans h1)
      · exact .inl (lt_of_le_of_lt (le_of_eq e2) h1)
    · rcases hbc with h2 | ⟨e2, l2⟩
      · exact .inl (lt_of_lt_of_le h2 (le_of_eq e1))
      · exact .inr ⟨e2.trans e1, l1.trans l2⟩⟩

/-- The alias table in the order `sorted(COUNTRY_ALIASES.keys(), key=len,
reverse=True)` iterates it (longest key first, stable on ties). -/
def sortedAliases : List (String × String) :=
  ((COUNTRY_ALIASES.zip (List.range COUNTRY_ALIASES.length)).insertionSort
    aliasSortLE).map Prod.fst

/-- Tier 3: first alias (longest first) occurring in the whole text as a
standalone word. -/
def tier3Scan (txt : String) : String :=
  match sortedAliases.find? fun kv => aliasFound kv.1 txt with
  | some kv => kv.2
  | none => ""

/-- Embedding of `_extract_country_from_aff`: email-TLD tier, then the
trailing-token tier, then the whole-text alias scan, else `""`. -/
def _extract_country_from_aff (aff : String) : String :=
  if aff = "" then ""
  else
    match tier1Email aff with
    | some c => c
    | none =>
      match tier2Trailing aff with
      | some c => c
      | none => tier3Scan aff

/-! ## Record normalization (`_prefer_abbrev`, `parse_records`) -/

/-- Embedding of `_prefer_abbrev`: first of ISO abbreviation, MedlineTA,
full journal title whose value is present and nonempty after stripping,
whitespace-normalized; `""` otherwise. -/
def _prefer_abbrev (art : Element) : String :=
  let pick : Option String → Option String := fun o =>
    match o with
    | some v => if v ≠ "" ∧ pyStrip v ≠ "" then some (_norm_ws v) else none
    | none => none
  (((pick (findtextDesc2 art "Journal" "ISOAbbreviation")).orElse fun _ =>
      pick (findtextDesc2 art "MedlineJournalInfo" "MedlineTA")).orElse fun _ =>
      pick (findtextDesc2 art "Journal" "Title")).getD ""

/-- Embedding of `_extract_pubtypes`: stripped nonempty `PublicationType`
texts in document order, first occurrence of each distinct label kept. -/
def _extract_pubtypes (art : Element) : List String :=
  ((findallDesc2 art "PublicationTypeList" "PublicationType").map fun pt =>
    pyStrip pt.textD).foldl
    (fun acc t => if t ≠ "" ∧ t ∉ acc then acc ++ [t] else acc) []

/-- Accumulator of the author loop: the first author's rendered name, the
number of credited authors, and the raw affiliation text captured from the
first named author. -/
structure AuthAcc where
  firstName : String
  counted : Nat
  affRaw : String
deriving DecidableEq

/-- One iteration of the author loop in `parse_records`. -/
def authorStep (acc : AuthAcc) (au : Element) : AuthAcc :=
  let last := (findtextChild au "LastName").getD ""
  let init := (findtextChild au "Initials").getD ""
  let collective := (findtextChild au "CollectiveName").getD ""
  if last ≠ "" ∨ init ≠ "" then
    let name := pyStrip (last ++ " " ++ init)
    let acc :=
      if acc.firstName = "" then
        { acc with firstName := name,
                   affRaw := _itertext (findChild2 au "AffiliationInfo" "Affiliation") }
      else acc
    { acc with counted := acc.counted + 1 }
  else if collective ≠ "" then
    let acc := if acc.firstName = "" then { acc with firstName := collective } else acc
    { acc with counted := acc.counted + 1 }
  else acc

/-- `art.findall(".//AuthorList/Author")`. -/
def authorNodes (art : Element) : List Element :=
  findallDesc2 art "AuthorList" "Author"

/-- The author loop folded over all author nodes. -/
def authorsInfo (art : Element) : AuthAcc :=
  (authorNodes art).foldl authorStep ⟨"", 0, ""⟩

/-- The raw affiliation text fed to country inference: the first author's
affiliation, or the first `AffiliationInfo/Affiliation` anywhere in the
article when that is empty. -/
def affSource (art : Element) : String :=
  let a := (authorsInfo art).affRaw
  if a = "" then _itertext (findallDesc2 art "AffiliationInfo" "Affiliation").head?
  else a

/-- The `authors` display line: first author's name, `", et al."` when at
least two authors were counted and a name was found, then the inferred
country in full-width parentheses when inference succeeded. -/
def authorsLine (art : Element) : String :=
  let acc := authorsInfo art
  let country := _extract_country_from_aff (affSource art)
  let d := acc.firstName
  let d := if 2 ≤ acc.counted ∧ d ≠ "" then d ++ ", et al." else d
  if country ≠ "" then d ++ "（" ++ country ++ "）" else d

/-- The abstract: each nonempty `AbstractText` section rendered as
`"Label: text"` when it carries a nonempty `Label` attribute, sections
joined with newlines. -/
def abstractText (art : Element) : String :=
  String.intercalate "\n"
    ((findallDesc2 art "Abstract" "AbstractText").filterMap fun ab =>
      let label := (alookupS ab.attrs "Label").getD ""
      let txt := _norm_ws ab.allText
      if txt = "" then none
      else if label ≠ "" then some (label ++ ": " ++ txt) else some txt)

/-- The first `ArticleId` whose lower-cased `IdType` attribute is `"doi"`,
stripped; `""` when there is none. -/
def doiOf (art : Element) : String :=
  match (findallDesc2 art "ArticleIdList" "ArticleId").find? fun aid =>
      lowerStr (attrD aid "IdType") = "doi" with
  | some aid => pyStrip aid.textD
  | none => ""

/-- One normalized record, the dict `parse_records` appends per article.
The `title_ja` and `summary` fields are filled in later by the main loop. -/
structure PubRecord where
  pmid : String
  title : String
  authors : String
  journal : String
  pubdate : String
  doi : String
  url : String
  abstract : String
  pt : List String
  title_ja : String := ""
  summary : String := ""
deriving DecidableEq

/-- The per-article body of `parse_records`. -/
def parseArticle (art : Element) : PubRecord :=
  let pmid := pyStrip ((findtextDesc1 art "PMID").getD "")
  { pmid := pmid
    title := _itertext (findallDesc2 art "Article" "ArticleTitle").head?
    authors := authorsLine art
    journal := _prefer_abbrev art
    pubdate := _extract_pubdate_display art
    doi := doiOf art
    url := "https://pubmed.ncbi.nlm.nih.gov/" ++ pmid ++ "/"
    abstract := abstractText art
    pt := _extract_pubtypes art }

/-- Failure of `xml.etree.ElementTree.fromstring` (a raised `ParseError`). -/
inductive XmlParseError where
  | parseError
deriving DecidableEq

/-- Embedding of `parse_records`.  The external XML parser is passed in as
`fromstring`; an empty blob short-circuits to the empty list before any
parsing, and a parser failure propagates (the source has no handler around
`ET.fromstring`). -/
def parse_records (fromstring : String → Except XmlParseError Element)
    (xml_text : String) : Except XmlParseError (List PubRecord) :=
  if xml_text = "" then .ok []
  else
    match fromstring xml_text with
    | .error e => .error e
    | .ok root => .ok ((descendantsNamed root "PubmedArticle").map parseArticle)

/-! ## Sent-state store (`load_sent_state`, `save_sent_state`, registration)

The persisted file is JSON.  Its decoded shape is modelled by `PJson`
(either the legacy flat list of PMIDs, the current dict form, or any other
JSON value), and the file itself by `PFile` (missing, unreadable, or a
decoded document).  A state value in memory maps a PMID to either a dict
with an optional `added_at` (absent and `null` are identified, both being
read back as a missing timestamp) or some non-dict JSON value. -/

/-- One value of the in-memory state dict. -/
inductive JVal where
  | jdict (addedAt : Option String)
  | jother
deriving DecidableEq

/-- The in-memory sent state: a Python dict modelled as an association
list in insertion order with unique keys. -/
abbrev SentState := List (String × JVal)

/-- Python dict assignment `d[k] = v`: update in place when the key exists,
append otherwise. -/
def dictSet {V : Type} : List (String × V) → String → V → List (String × V)
  | [], k, v => [(k, v)]
  | (k', v') :: rest, k, v =>
    if k' = k then (k, v) :: rest else (k', v') :: dictSet rest k v

/-- Decoded persisted JSON document. -/
inductive PJson where
  | plist (xs : List String)
  | pdict (es : SentState)
  | pother
deriving DecidableEq

/-- The state file: absent, present but unparseable, or a decoded document. -/
inductive PFile where
  | missing
  | invalid
  | doc (j : PJson)
deriving DecidableEq

/-- Embedding of `load_sent_state`: a missing file and an unreadable file
both yield the empty mapping; the legacy flat list is converted to a dict
with `added_at = None` per member; a dict is returned as is; any other JSON
value falls through to the empty mapping. -/
def load_sent_state : PFile → SentState
  | .missing => []
  | .invalid => []
  | .doc (.plist xs) => xs.foldl (fun d p => dictSet d p (.jdict none)) []
  | .doc (.pdict es) => es
  | .doc .pother => []

/-- Key order used by `json.dump(..., sort_keys=True)`. -/
def keyLE {V : Type} (p q : String × V) : Prop := p.1 ≤ q.1

instance {V : Type} : DecidableRel (keyLE (V := V)) := fun p q => by
  unfold keyLE; infer_instance

instance {V : Type} : IsTotal (String × V) keyLE :=
  ⟨fun a b => le_total a.1 b.1⟩

instance {V : Type} : IsTrans (String × V) keyLE :=
  ⟨fun _ _ _ h1 h2 => le_trans h1 h2⟩

/-- The mapping as serialized: sorted by key. -/
def sortByKey (d : SentState) : SentState := d.insertionSort keyLE

/-- The JSON document a completed `save_sent_state(state)` writes. -/
def save_doc (state : SentState) : PJson := .pdict (sortByKey state)

/-- How far a run of `save_sent_state` got before the process stopped. -/
inductive SaveOutcome where
  | notStarted
  | interrupted
  | completed
deriving DecidableEq

/-- Effect of `save_sent_state` on the state file.  The source opens the
file with mode `"w"` (truncating it) and then streams `json.dump` into it,
so a save that has started but not finished leaves unparseable partial
contents in place of the previous file; only a save that never started
preserves the previous contents. -/
def save_sent_state : PFile → SentState → SaveOutcome → PFile
  | prev, _, .notStarted => prev
  | _, _, .interrupted => .invalid
  | _, state, .completed => .doc (save_doc state)

/-- Embedding of the registration step of `main` (lines 544-547): a PMID
that is absent or mapped to a non-dict is (re)inserted with
`added_at = now`; a dict entry with a falsy `added_at` (absent, `null` or
`""`) is backfilled with `now`; a dict entry with a truthy timestamp is
left alone. -/
def registerPmid (state : SentState) (pmid now : String) : SentState :=
  match alookupS state pmid with
  | none => dictSet state pmid (.jdict (some now))
  | some .jother => dictSet state pmid (.jdict (some now))
  | some (.jdict a) =>
    if a.getD "" = "" then dictSet state pmid (.jdict (some now)) else state

/-! ## Summarization step of the main loop -/

/-- Result shape of `summarize_title_and_bullets`. -/
structure SummaryData where
  title_ja : String
  bullets : List String

/-- Embedding of the per-record summarization step of `main` (lines
550-553): the collaborator is called with the record's title and abstract,
its localized title is attached, and the summary is the newline-joined
bullets when the abstract is nonempty but a fixed placeholder line when the
abstract is empty. -/
def annotateRecord (summarize : String → String → SummaryData)
    (rec : PubRecord) : PubRecord :=
  let data := summarize rec.title rec.abstract
  { rec with
    title_ja := data.title_ja
    summary :=
      if rec.abstract ≠ "" then String.intercalate "\n" data.bullets
      else "・この論文にはPubMed上でアブストラクトが見つかりません" }

/-! ## Association-list lemmas for the state store -/

/-- Keys of a modelled dict, in insertion order. -/
def keysOf {V : Type} (d : List (String × V)) : List String := d.map Prod.fst

theorem alookupS_dictSet_self {V : Type} (d : List (String × V)) (k : String) (v : V) :
    alookupS (dictSet d k v) k = some v := by
  induction d with
  | nil => simp [dictSet, alookupS]
  | cons p rest ih =>
    obtain ⟨k', v'⟩ := p
    by_cases h : k' = k
    · simp [dictSet, h, alookupS]
    · simp [dictSet, h, alookupS, ih]

theorem alookupS_dictSet_ne {V : Type} (d : List (String × V)) (k : String) (v : V)
    (k' : String) (h : k ≠ k') :
    alookupS (dictSet d k v) k' = alookupS d k' := by
  induction d with
  | nil => simp [dictSet, alookupS, h]
  | cons p rest ih =>
    obtain ⟨k0, v0⟩ := p
    by_cases h0 : k0 = k
    · subst h0
      simp [dictSet, alookupS, h]
    · simp [dictSet, h0, alookupS, ih]

theorem mem_keysOf_dictSet {V : Type} (d : List (String × V)) (k : String) (v : V)
    (a : String) : a ∈ keysOf (dictSet d k v) ↔ a ∈ keysOf d ∨ a = k := by
  induction d with
  | nil => simp [dictSet, keysOf]
  | cons p rest ih =>
    obtain ⟨k0, v0⟩ := p
    by_cases h0 : k0 = k
    · subst h0
      simp [dictSet, keysOf] at *
      tauto
    · simp [dictSet, h0, keysOf] at *
      tauto

theorem keysOf_dictSet {V : Type} (d : List (String × V)) (k : String) (v : V) :
    keysOf (dictSet d k v) = if k ∈ keysOf d then keysOf d else keysOf d ++ [k] := by
  induction d with
  | nil => simp [dictSet, keysOf]
  | cons p rest ih =>
    obtain ⟨k0, v0⟩ := p
    by_cases h0 : k0 = k
    · subst h0
      simp [dictSet, keysOf]
    · have hne : ¬ k = k0 := fun e => h0 e.symm
      simp only [dictSet, if_neg h0, keysOf, List.map_cons, List.mem_cons, hne, false_or]
      rw [keysOf] at ih
      rw [ih]
      by_cases hk : k ∈ List.map Prod.fst rest <;> simp [keysOf, hk]

theorem keysOf_nodup_dictSet {V : Type} (d : List (String × V)) (k : String) (v : V)
    (h : (keysOf d).Nodup) : (keysOf (dictSet d k v)).Nodup := by
  rw [keysOf_dictSet]
  by_cases hk : k ∈ keysOf d
  · simpa [hk] using h
  · simp only [hk, if_false, List.nodup_append, List.nodup_cons, List.nodup_nil]
    exact ⟨h, by simp, by simpa [List.disjoint_singleton] using hk⟩

theorem alookupS_eq_none_iff {V : Type} (d : List (String × V)) (k : String) :
    alookupS d k = none ↔ k ∉ keysOf d := by
  induction d with
  | nil => simp [alookupS, keysOf]
  | cons p rest ih =>
    obtain ⟨k0, v0⟩ := p
    by_cases h0 : k0 = k
    · subst h0
      simp [alookupS, keysOf]
    · simp only [alookupS, if_neg h0, keysOf, List.map_cons, List.mem_cons]
      rw [keysOf] at ih
      rw [ih]
      constructor
      · rintro hn (e | hm)
        · exact h0 e.symm
        · exact hn hm
      · intro hn hm
        exact hn (Or.inr hm)

theorem mem_of_alookupS {V : Type} (d : List (String × V)) (k : String) (v : V)
    (h : alookupS d k = some v) : (k, v) ∈ d := by
  induction d with
  | nil => simp [alookupS] at h
  | cons p rest ih =>
    obtain ⟨k0, v0⟩ := p
    by_cases h0 : k0 = k
    · subst h0
      rw [alookupS, if_pos rfl] at h
      obtain rfl : v0 = v := Option.some.injEq .. ▸ h
      exact List.mem_cons_self _ _
    · rw [alookupS, if_neg h0] at h
      exact List.mem_cons_of_mem _ (ih h)

theorem alookupS_of_mem_nodup {V : Type} (d : List (String × V)) (k : String) (v : V)
    (hnd : (keysOf d).Nodup) (h : (k, v) ∈ d) : alookupS d k = some v := by
  induction d with
  | nil => simp at h
  | cons p rest ih =>
    obtain ⟨k0, v0⟩ := p
    rw [keysOf, List.map_cons, List.nodup_cons] at hnd
    rcases List.mem_cons.mp h with heq | hmem
    · cases heq
      simp [alookupS]
    · have hk0 : ¬ k0 = k := by
        intro e
        subst e
        exact hnd.1 (List.mem_map.mpr ⟨(k0, v), hmem, rfl⟩)
      rw [alookupS, if_neg hk0]
      exact ih hnd.2 hmem

theorem sortByKey_perm (d : SentState) : (sortByKey d).Perm d :=
  List.perm_insertionSort keyLE d

/-- Strict key order; the serialization order on states with distinct keys. -/
def keyLT {V : Type} (p q : String × V) : Prop := p.1 < q.1

instance {V : Type} : IsAntisymm (String × V) keyLT :=
  ⟨fun _ _ h1 h2 => ((lt_asymm h1) h2).elim⟩

theorem sorted_keyLT_of_nodup (d : SentState) (hs : List.Sorted keyLE d)
    (hnd : (keysOf d).Nodup) : List.Sorted keyLT d := by
  have hne : d.Pairwise fun p q => p.1 ≠ q.1 := by
    rw [keysOf] at hnd
    exact List.pairwise_map.mp hnd
  exact (hs.and hne).imp fun h => lt_of_le_of_ne h.1 h.2

theorem keysOf_nodup_of_perm {V : Type} (d1 d2 : List (String × V)) (hp : d1.Perm d2)
    (hnd : (keysOf d1).Nodup) : (keysOf d2).Nodup :=
  ((hp.map Prod.fst).nodup_iff).mp hnd

theorem alookupS_sortByKey (d : SentState) (hnd : (keysOf d).Nodup) (k : String) :
    alookupS (sortByKey d) k = alookupS d k := by
  have hperm := sortByKey_perm d
  have hknd : (keysOf (sortByKey d)).Nodup := keysOf_nodup_of_perm d _ hperm.symm hnd
  cases h : alookupS d k with
  | none =>
    rw [alookupS_eq_none_iff] at h ⊢
    intro hmem
    exact h ((hperm.map Prod.fst).mem_iff.mp hmem)
  | some v =>
    exact alookupS_of_mem_nodup _ _ _ hknd (hperm.mem_iff.mpr (mem_of_alookupS _ _ _ h))

theorem sortByKey_eq_of_perm (d1 d2 : SentState) (hp : d1.Perm d2)
    (hnd : (keysOf d1).Nodup) : sortByKey d1 = sortByKey d2 := by
  have hnd2 : (keysOf d2).Nodup := keysOf_nodup_of_perm d1 d2 hp hnd
  have hperm : (sortByKey d1).Perm (sortByKey d2) :=
    ((sortByKey_perm d1).trans hp).trans (sortByKey_perm d2).symm
  have hs1 : List.Sorted keyLT (sortByKey d1) :=
    sorted_keyLT_of_nodup _ (List.sorted_insertionSort keyLE d1)
      (keysOf_nodup_of_perm d1 _ (sortByKey_perm d1).symm hnd)
  have hs2 : List.Sorted keyLT (sortByKey d2) :=
    sorted_keyLT_of_nodup _ (List.sorted_insertionSort keyLE d2)
      (keysOf_nodup_of_perm d2 _ (sortByKey_perm d2).symm hnd2)
  exact List.eq_of_perm_of_sorted hperm hs1 hs2

/-! ## Claim C1: empty vs. malformed blobs in `parse_records` -/

/-- C1 (amended): an empty raw blob yields `ok []` without invoking the XML
parser, and for a nonempty blob on which the parser fails the parse error
propagates out of `parse_records` — the source has no handler around
`ET.fromstring`, so a malformed nonempty blob aborts the run instead of
yielding an empty record list. -/
theorem C1_parse_records_empty_or_malformed
    (fromstring : String → Except XmlParseError Element) (blob : String)
    (e : XmlParseError) (hne : blob ≠ "") (herr : fromstring blob = .error e) :
    parse_records fromstring "" = .ok [] ∧
    parse_records fromstring blob = .error e := by
  constructor
  · simp [parse_records]
  · rw [parse_records, if_neg hne, herr]

/-- C1 counterexample: with the parser behavior of `ET.fromstring` on the
malformed blob `"<"` (it raises `ParseError`), `parse_records` propagates
the error instead of returning the empty record list the claim requires. -/
theorem C1_counterexample :
    parse_records (fun _ => .error .parseError) "<" = .error .parseError ∧
    Except.error XmlParseError.parseError ≠ Except.ok ([] : List PubRecord) := by
  exact ⟨rfl, by simp⟩

/-- C1 witness: the amended theorem applied to the blob `"<"` and a parser
that fails on it. -/
theorem C1_witness :
    parse_records (fun _ => Except.error XmlParseError.parseError) "" = .ok [] ∧
    parse_records (fun _ => Except.error XmlParseError.parseError) "<" =
      .error .parseError :=
  C1_parse_records_empty_or_malformed _ "<" _ (by decide) rfl

/-! ## Claim C2: the email-domain tier of country inference -/

/-- C2 (amended): when the FIRST email-like match of the pattern
`@[\w\.-]+\.(\w+)` in the affiliation string has a top-level domain that is
a key of `TLD_COUNTRY_MAP`, country inference returns that domain's mapped
country name.  (The original claim — that ANY contained email address with
a known TLD forces the mapped country — fails: only the first match is
examined.) -/
theorem C2_email_tier (aff : String) (g : List Char) (c : String)
    (h1 : emailTldGroup aff.data = some g)
    (h2 : alookupS TLD_COUNTRY_MAP (lowerStr g.asString) = some c) :
    _extract_country_from_aff aff = c := by
  have haff : ¬ aff = "" := by
    intro h
    subst h
    simp [emailTldGroup] at h1
  have ht : tier1Email aff = some c := by
    rw [tier1Email, h1]
    exact h2
  rw [_extract_country_from_aff, if_neg haff, ht]

/-- C2 counterexample: the affiliation `"a@b.com x@y.jp"` contains the email
address `"x@y.jp"` whose TLD `"jp"` is a key of the table mapping to
`"Japan"`, yet inference returns `""` because the first email-like match
(`@b.com`, TLD `"com"`) is not in the table and the remaining tiers find
nothing. -/
theorem C2_counterexample :
    "a@b.com x@y.jp" = "a@b.com " ++ "x@y.jp" ∧
    emailTldGroup "x@y.jp".data = some ['j', 'p'] ∧
    alookupS TLD_COUNTRY_MAP "jp" = some "Japan" ∧
    _extract_country_from_aff "a@b.com x@y.jp" = "" := by
  exact ⟨rfl, by decide, by decide, by decide⟩

/-- C2 witness: the amended theorem applied to `"lab@riken.jp; RIKEN"`. -/
theorem C2_witness :
    _extract_country_from_aff "lab@riken.jp; RIKEN" = "Japan" :=
  C2_email_tier _ ['j', 'p'] _ (by decide) (by decide)

/-! ## Claim C3: registration is idempotent on the timestamp -/

theorem registerPmid_noop (state : SentState) (pmid now x : String) (hx : ¬ x = "")
    (hl : alookupS state pmid = some (.jdict (some x))) :
    registerPmid state pmid now = state := by
  simp only [registerPmid, hl, Option.getD_some]
  simp [hx]

theorem alookupS_registerPmid_self (state : SentState) (pmid now : String)
    (hnow : ¬ now = "") :
    ∃ x, ¬ x = "" ∧
      alookupS (registerPmid state pmid now) pmid = some (.jdict (some x)) := by
  cases h0 : alookupS state pmid with
  | none =>
    refine ⟨now, hnow, ?_⟩
    simp only [registerPmid, h0]
    exact alookupS_dictSet_self _ _ _
  | some jv =>
    cases jv with
    | jother =>
      refine ⟨now, hnow, ?_⟩
      simp only [registerPmid, h0]
      exact alookupS_dictSet_self _ _ _
    | jdict a =>
      by_cases ha : a.getD "" = ""
      · refine ⟨now, hnow, ?_⟩
        simp only [registerPmid, h0, if_pos ha]
        exact alookupS_dictSet_self _ _ _
      · cases a with
        | none => simp at ha
        | some s =>
          refine ⟨s, by simpa using ha, ?_⟩
          simp only [registerPmid, h0, if_neg ha]

/-- C3: registering an identifier inserts `added_at = now` when the
identifier is absent, backfills a present entry whose `added_at` is absent,
is a no-op on an entry holding a (nonempty) timestamp, and consequently a
second registration with a different timestamp never changes the state
produced by the first registration. -/
theorem C3_register_idempotent (state : SentState) (pmid t1 t2 : String)
    (h : t1 ≠ "") :
    (alookupS state pmid = none →
      alookupS (registerPmid state pmid t1) pmid = some (.jdict (some t1))) ∧
    (alookupS state pmid = some (.jdict none) →
      alookupS (registerPmid state pmid t1) pmid = some (.jdict (some t1))) ∧
    (∀ t0, t0 ≠ "" → alookupS state pmid = some (.jdict (some t0)) →
      registerPmid state pmid t1 = state) ∧
    registerPmid (registerPmid state pmid t1) pmid t2 = registerPmid state pmid t1 := by
  refine ⟨?_, ?_, ?_, ?_⟩
  · intro h0
    simp only [registerPmid, h0]
    exact alookupS_dictSet_self _ _ _
  · intro h0
    simp only [registerPmid, h0, Option.getD_none, if_pos rfl]
    exact alookupS_dictSet_self _ _ _
  · intro t0 ht0 h0
    exact registerPmid_noop _ _ _ _ ht0 h0
  · obtain ⟨x, hx, hl⟩ := alookupS_registerPmid_self state pmid t1 h
    exact registerPmid_noop _ _ _ _ hx hl

/-- C3 witness: the theorem applied to the empty state, PMID `"1"` and the
timestamps `"a"` then `"b"`: the first registration records `"a"` and the
second leaves the state unchanged. -/
theorem C3_witness :
    alookupS (registerPmid [] "1" "a") "1" = some (.jdict (some "a")) ∧
    registerPmid (registerPmid [] "1" "a") "1" "b" = registerPmid [] "1" "a" := by
  have h := C3_register_idempotent [] "1" "a" "b" (by decide)
  exact ⟨h.1 rfl, h.2.2.2⟩

/-! ## Claim C4: legacy flat-list round-trip -/

theorem alookupS_legacy (xs : List String) (d : SentState) (p : String) :
    alookupS (xs.foldl (fun d x => dictSet d x (JVal.jdict none)) d) p =
      if p ∈ xs then some (JVal.jdict none) else alookupS d p := by
  induction xs generalizing d with
  | nil => simp
  | cons x rest ih =>
    simp only [List.foldl_cons]
    rw [ih]
    by_cases hx : p ∈ rest
    · simp [hx]
    · by_cases hpx : p = x
      · subst hpx
        simp [hx, alookupS_dictSet_self]
      · simp [hx, hpx, alookupS_dictSet_ne _ _ _ _ fun e => hpx e.symm]

theorem keysOf_nodup_legacy (xs : List String) (d : SentState)
    (h : (keysOf d).Nodup) :
    (keysOf (xs.foldl (fun d x => dictSet d x (JVal.jdict none)) d)).Nodup := by
  induction xs generalizing d with
  | nil => exact h
  | cons x rest ih => exact ih _ (keysOf_nodup_dictSet _ _ _ h)

/-- C4: loading a persisted legacy flat list, registering one fresh
identifier with a (nonempty) timestamp, saving, and reloading yields a
mapping in which every original identifier is present with an absent
`added_at` (its original legacy value) and the new identifier carries the
concrete timestamp. -/
theorem C4_legacy_roundtrip (xs : List String) (n t : String)
    (hn : n ∉ xs) :
    (∀ p ∈ xs,
      alookupS (load_sent_state (save_sent_state (.doc (.plist xs))
        (registerPmid (load_sent_state (.doc (.plist xs))) n t) .completed)) p =
        some (.jdict none)) ∧
    alookupS (load_sent_state (save_sent_state (.doc (.plist xs))
      (registerPmid (load_sent_state (.doc (.plist xs))) n t) .completed)) n =
      some (.jdict (some t)) := by
  have hS0 : load_sent_state (.doc (.plist xs)) =
      xs.foldl (fun d x => dictSet d x (JVal.jdict none)) [] := rfl
  have hS0n : alookupS (load_sent_state (.doc (.plist xs))) n = none := by
    rw [hS0, alookupS_legacy]
    simp [hn, alookupS]
  have hnd0 : (keysOf (load_sent_state (.doc (.plist xs)))).Nodup := by
    rw [hS0]
    exact keysOf_nodup_legacy xs [] (by simp [keysOf])
  have hS1 : registerPmid (load_sent_state (.doc (.plist xs))) n t =
      dictSet (load_sent_state (.doc (.plist xs))) n (.jdict (some t)) := by
    simp only [registerPmid, hS0n]
  have hnd1 : (keysOf (registerPmid (load_sent_state (.doc (.plist xs))) n t)).Nodup := by
    rw [hS1]
    exact keysOf_nodup_dictSet _ _ _ hnd0
  have hload : load_sent_state (save_sent_state (.doc (.plist xs))
      (registerPmid (load_sent_state (.doc (.plist xs))) n t) .completed) =
      sortByKey (registerPmid (load_sent_state (.doc (.plist xs))) n t) := rfl
  constructor
  · intro p hp
    have hne : n ≠ p := fun e => hn (e ▸ hp)
    rw [hload, alookupS_sortByKey _ hnd1, hS1, alookupS_dictSet_ne _ _ _ _ hne,
      hS0, alookupS_legacy]
    simp [hp]
  · rw [hload, alookupS_sortByKey _ hnd1, hS1]
    exact alookupS_dictSet_self _ _ _

/-- C4 witness: the theorem applied to the legacy list `["10"]`, the new
identifier `"2"` and the timestamp `"2024-01-01T09:00:00+09:00"`. -/
theorem C4_witness :
    alookupS (load_sent_state (save_sent_state (.doc (.plist ["10"]))
      (registerPmid (load_sent_state (.doc (.plist ["10"]))) "2"
        "2024-01-01T09:00:00+09:00") .completed)) "10" = some (.jdict none) ∧
    alookupS (load_sent_state (save_sent_state (.doc (.plist ["10"]))
      (registerPmid (load_sent_state (.doc (.plist ["10"]))) "2"
        "2024-01-01T09:00:00+09:00") .completed)) "2" =
      some (.jdict (some "2024-01-01T09:00:00+09:00")) := by
  have h := C4_legacy_roundtrip ["10"] "2" "2024-01-01T09:00:00+09:00" (by decide)
  exact ⟨h.1 "10" (by decide), h.2⟩

/-! ## Claims C5 and C6: the authors display line -/

/-- C5 (amended): for an article with at least two counted authors and a
nonempty first-author name, the authors line is the first author's name
followed directly by `", et al."`, followed by the parenthesized inferred
country when country inference succeeded — so the line ends with
`", et al."` exactly when no country was inferred, and otherwise the
country annotation follows the `", et al."` suffix. -/
theorem C5_et_al (art : Element)
    (h2 : 2 ≤ (authorsInfo art).counted)
    (h1 : (authorsInfo art).firstName ≠ "") :
    authorsLine art = (authorsInfo art).firstName ++ ", et al." ++
      (if _extract_country_from_aff (affSource art) = "" then ""
       else "（" ++ _extract_country_from_aff (affSource art) ++ "）") := by
  by_cases hc : _extract_country_from_aff (affSource art) = ""
  · simp [authorsLine, h2, h1, hc]
  · simp [authorsLine, h2, h1, hc, String.append_assoc]
    rw [show (", et al.（" : String) = ", et al." ++ "（" from rfl, String.append_assoc]

/-- Article with two named authors, the first with affiliation
`"Tokyo, Japan"`. -/
def cArt5 : Element :=
  elem "PubmedArticle" [] none none
    [elem "AuthorList" [] none none
      [elem "Author" [] none none
        [elem "LastName" [] (some "Yamada") none [],
         elem "Initials" [] (some "T") none [],
         elem "AffiliationInfo" [] none none
           [elem "Affiliation" [] (some "Tokyo, Japan") none []]],
       elem "Author" [] none none
        [elem "LastName" [] (some "Sato") none [],
         elem "Initials" [] (some "K") none []]]]

/-- C5 counterexample: `cArt5` has two credited authors and a first-author
name, yet its authors display is `"Yamada T, et al.（Japan）"`, which does
NOT end with `", et al."` — the country annotation is appended after it. -/
theorem C5_counterexample :
    (authorsInfo cArt5).counted = 2 ∧
    (authorsInfo cArt5).firstName = "Yamada T" ∧
    authorsLine cArt5 = "Yamada T, et al.（Japan）" ∧
    ", et al.".data.isSuffixOf "Yamada T, et al.（Japan）".data = false := by
  exact ⟨by decide, by decide, by decide, by decide⟩

/-- C5 witness: the amended theorem applied to `cArt5`. -/
theorem C5_witness :
    authorsLine cArt5 = (authorsInfo cArt5).firstName ++ ", et al." ++
      (if _extract_country_from_aff (affSource cArt5) = "" then ""
       else "（" ++ _extract_country_from_aff (affSource cArt5) ++ "）") :=
  C5_et_al cArt5 (by decide) (by decide)

/-- C6 (amended): for an article with zero author nodes, no author name and
no `", et al."` suffix is produced; the authors display is exactly the
parenthesized inferred country of the article-level fallback affiliation,
and in particular it is the empty string only when country inference finds
nothing. -/
theorem C6_no_authors (art : Element) (h : authorNodes art = []) :
    authorsLine art =
      (if _extract_country_from_aff (affSource art) = "" then ""
       else "（" ++ _extract_country_from_aff (affSource art) ++ "）") := by
  have hacc : authorsInfo art = ⟨"", 0, ""⟩ := by
    rw [authorsInfo, h]
    rfl
  by_cases hc : _extract_country_from_aff (affSource art) = ""
  · simp [authorsLine, hacc, hc]
  · simp [authorsLine, hacc, hc]

/-- Article with no author nodes but an affiliation reachable by the
article-wide fallback search. -/
def cArt6 : Element :=
  elem "PubmedArticle" [] none none
    [elem "InvestigatorList" [] none none
      [elem "Investigator" [] none none
        [elem "AffiliationInfo" [] none none
          [elem "Affiliation" [] (some "Osaka, Japan") none []]]]]

/-- C6 counterexample: `cArt6` contains zero author nodes, yet its authors
display is `"（Japan）"`, not the empty string: the country inferred from
the fallback affiliation is still appended. -/
theorem C6_counterexample :
    authorNodes cArt6 = [] ∧
    authorsLine cArt6 = "（Japan）" ∧
    ("（Japan）" : String) ≠ "" := by
  exact ⟨rfl, by decide, by decide⟩

/-- C6 witness: the amended theorem applied to `cArt6`. -/
theorem C6_witness :
    authorsLine cArt6 =
      (if _extract_country_from_aff (affSource cArt6) = "" then ""
       else "（" ++ _extract_country_from_aff (affSource cArt6) ++ "）") :=
  C6_no_authors cArt6 rfl

/-! ## Claims C7 and C8: the publication-date fallback chain -/

/-- Month numbers for the chronological comparison used by the
spec-modelled "earliest" reading of the history step. -/
def MONTH_NUM : List (String × Nat) :=
  [("Jan",1),("Feb",2),("Mar",3),("Apr",4),("May",5),("Jun",6),
   ("Jul",7),("Aug",8),("Sep",9),("Oct",10),("Nov",11),("Dec",12)]

/-- Decimal value of a digit string (0 when the string is not all digits). -/
def digitsToNatAux : List Char → Nat → Nat
  | [], acc => acc
  | c :: rest, acc => digitsToNatAux rest (acc * 10 + (c.toNat - 48))

def digitsToNat (s : String) : Nat :=
  if isDigitStr s then digitsToNatAux s.data 0 else 0

/-- Chronological key of a history date node: year, month and day packed
into one natural number (missing or unreadable parts count as zero). -/
def dateKeyNode (p : Element) : Nat :=
  let y := digitsToNat ((findtextChild p "Year").getD "")
  let m0 := pyStrip ((findtextChild p "Month").getD "")
  let m := (alookupS MONTH_NUM ((alookupS _MONTH_ABBR m0).getD m0)).getD 0
  let d := digitsToNat ((findtextChild p "Day").getD "")
  y * 10000 + m * 100 + d

/-- Modelled from the spec: step 5 of the spec's publication-date chain says
the result is "the earliest of a small set of processing-history date
entries checked in this fixed order: pubmed, then entrez, then medline".
This definition follows the spec's words — collect the entries present for
those statuses in that order and render the chronologically earliest one
(ties resolved by the fixed order) — so it can be compared with the
source's `historyDate`, which instead returns the FIRST entry present. -/
def earliestHistoryDisplay (art : Element) : String :=
  match ["pubmed", "entrez", "medline"].filterMap (findHistoryStatus art) with
  | [] => ""
  | e :: es =>
    fmtDateNode (es.foldl (fun best p =>
      if dateKeyNode p < dateKeyNode best then p else best) e)

/-- C7 (amended): when the first four fallback steps fail (no `ArticleDate`
nodes, empty issue-date rendering, empty `MedlineDate`), the rendered date
is that of the FIRST history entry present, checked in the fixed order
`"pubmed"`, `"entrez"`, `"medline"` — not the chronologically earliest
entry. -/
theorem C7_history_first (art : Element)
    (h1 : articleDates art = [])
    (h2 : issueDateStr art = "")
    (h3 : medlineDate art = "") :
    _extract_pubdate_display art = historyDate art := by
  rw [_extract_pubdate_display, electronicDate, h1]
  simp [pubdateFromIssue, h2, h3]

/-- Article whose only dates are history entries: a `"pubmed"` entry of
2025-01-02 and a chronologically earlier `"entrez"` entry of 2020-01-01. -/
def cArt7 : Element :=
  elem "PubmedArticle" [] none none
    [elem "History" [] none none
      [elem "PubMedPubDate" [("PubStatus", "pubmed")] none none
        [elem "Year" [] (some "2025") none [],
         elem "Month" [] (some "1") none [],
         elem "Day" [] (some "2") none []],
       elem "PubMedPubDate" [("PubStatus", "entrez")] none none
        [elem "Year" [] (some "2020") none [],
         elem "Month" [] (some "1") none [],
         elem "Day" [] (some "1") none []]]]

/-- C7 counterexample: on `cArt7` the first four steps all fail, the
chronologically earliest history entry renders as `"2020 Jan 01"`
(the entrez entry), but the source renders `"2025 Jan 02"` — the pubmed
entry, because it is the first status present, not the earliest date. -/
theorem C7_counterexample :
    articleDates cArt7 = [] ∧
    issueDateStr cArt7 = "" ∧
    medlineDate cArt7 = "" ∧
    _extract_pubdate_display cArt7 = "2025 Jan 02" ∧
    earliestHistoryDisplay cArt7 = "2020 Jan 01" ∧
    ("2025 Jan 02" : String) ≠ "2020 Jan 01" := by
  exact ⟨rfl, by decide, by decide, by decide, by decide, by decide⟩

/-- C7 witness: the amended theorem applied to `cArt7`, where the first
history status present is `"pubmed"`. -/
theorem C7_witness :
    _extract_pubdate_display cArt7 = historyDate cArt7 :=
  C7_history_first cArt7 rfl (by decide) (by decide)

/-- Article carrying an electronic `ArticleDate` of 2024-03-05 and an
issue `PubDate` of 2024 Feb. -/
def cArt8 : Element :=
  elem "PubmedArticle" [] none none
    [elem "Article" [] none none
      [elem "ArticleDate" [("DateType", "Electronic")] none none
        [elem "Year" [] (some "2024") none [],
         elem "Month" [] (some "03") none [],
         elem "Day" [] (some "05") none []]],
     elem "Journal" [] none none
      [elem "JournalIssue" [] none none
        [elem "PubDate" [] none none
          [elem "Year" [] (some "2024") none [],
           elem "Month" [] (some "Feb") none []]]]]

/-- C8: an article with `ArticleDate[@DateType="Electronic"]` = 2024-03-05
and an issue `PubDate` of 2024/Feb renders exactly `"2024 Mar 05"`: the
electronic date wins over the issue date (which would render `"2024 Feb"`),
month `"03"` becomes the abbreviation `"Mar"`, and the already two-digit
day `"05"` stays zero-padded. -/
theorem C8_electronic_date :
    _extract_pubdate_display cArt8 = "2024 Mar 05" ∧
    issueDateStr cArt8 = "2024 Feb" := by
  exact ⟨by decide, by decide⟩

/-! ## Claim C9: save semantics -/

/-- C9 (amended): `save_sent_state` rewrites the whole mapping in place by
truncating the file and then writing — it is NOT atomic: a save that never
started preserves the previous file, but an interrupted save leaves
unparseable contents (see the counterexample).  A completed save serializes
the mapping sorted by key, so saving the same mapping — the same key-value
pairs in any insertion order — produces identical file contents, and
reloading yields exactly the key-sorted mapping. -/
theorem C9_save (prev : PFile) (s1 s2 : SentState)
    (hp : s1.Perm s2) (hnd : (keysOf s1).Nodup) :
    save_sent_state prev s1 .notStarted = prev ∧
    load_sent_state (save_sent_state prev s1 .completed) = sortByKey s1 ∧
    save_sent_state prev s1 .completed = save_sent_state prev s2 .completed := by
  refine ⟨rfl, rfl, ?_⟩
  simp only [save_sent_state, save_doc]
  rw [sortByKey_eq_of_perm s1 s2 hp hnd]

/-- C9 counterexample: a save interrupted after the truncating open leaves
contents that do not parse, so the next load returns the empty mapping —
the previous persisted state (here a one-entry mapping) is NOT recoverable,
contradicting the claimed atomic all-or-nothing rewrite. -/
theorem C9_counterexample :
    load_sent_state (save_sent_state
      (.doc (.pdict [("1", .jdict (some "2024-01-01T09:00:00+09:00"))]))
      [("1", .jdict (some "2024-01-01T09:00:00+09:00")),
       ("2", .jdict (some "2024-01-02T09:00:00+09:00"))] .interrupted) = [] ∧
    load_sent_state (.doc (.pdict
      [("1", .jdict (some "2024-01-01T09:00:00+09:00"))])) =
      [("1", .jdict (some "2024-01-01T09:00:00+09:00"))] ∧
    ([] : SentState) ≠ [("1", .jdict (some "2024-01-01T09:00:00+09:00"))] := by
  exact ⟨rfl, rfl, by simp⟩

/-- C9 witness: the amended theorem applied to two insertion orders of the
same two-entry mapping. -/
theorem C9_witness :
    save_sent_state .missing [("b", .jdict none), ("a", .jdict none)]
      .notStarted = .missing ∧
    load_sent_state (save_sent_state .missing
      [("b", .jdict none), ("a", .jdict none)] .completed) =
      sortByKey [("b", .jdict none), ("a", .jdict none)] ∧
    save_sent_state .missing [("b", .jdict none), ("a", .jdict none)]
      .completed =
    save_sent_state .missing [("a", .jdict none), ("b", .jdict none)]
      .completed :=
  C9_save .missing _ _ (List.Perm.swap _ _ _) (by decide)

/-! ## Claim C10: summarization of records with an empty abstract -/

/-- C10: for a surviving record whose extracted abstract is empty, the
summarization collaborator is still invoked — the record's localized title
is exactly the collaborator's output for (title, "") — while the summary
field is unconditionally the fixed placeholder line, regardless of the
bullet points the collaborator returned. -/
theorem C10_empty_abstract (summarize : String → String → SummaryData)
    (rec : PubRecord) (h : rec.abstract = "") :
    (annotateRecord summarize rec).title_ja = (summarize rec.title "").title_ja ∧
    (annotateRecord summarize rec).summary =
      "・この論文にはPubMed上でアブストラクトが見つかりません" := by
  constructor
  · simp [annotateRecord, h]
  · simp [annotateRecord, h]

/-- Concrete summarizer returning a localized title and nonempty bullets. -/
def cSumm : String → String → SummaryData :=
  fun _ _ => ⟨"邦題X", ["・P1", "・P2", "・P3", "・P4"]⟩

/-- Concrete record with an empty abstract. -/
def cRec10 : PubRecord :=
  { pmid := "1", title := "T", authors := "", journal := "", pubdate := "",
    doi := "", url := "https://pubmed.ncbi.nlm.nih.gov/1/", abstract := "",
    pt := [] }

/-- C10 witness: the theorem applied to `cSumm` and `cRec10`: the localized
title `"邦題X"` is kept while the four returned bullets are discarded in
favor of the placeholder. -/
theorem C10_witness :
    (annotateRecord cSumm cRec10).title_ja = (cSumm cRec10.title "").title_ja ∧
    (annotateRecord cSumm cRec10).summary =
      "・この論文にはPubMed上でアブストラクトが見つかりません" :=
  C10_empty_abstract cSumm cRec10 rfl
